import Mathlib

/-!
Verification of the seat-booking / attendance / absence core of the
Life Changer Library application.

The definitions below are a shallow embedding of the TypeScript source and
of the SQL storage layer:
- `shiftEnded` embeds the `shiftEnded` switch of `POST /check-absent-students`
  (app/+api/check-absent-students.ts, lines 36-52);
- `POSTcheckAbsent` embeds the body of that handler (lines 3-93);
- `requestBooking` embeds `handleSeatBooking`/`handleDirectBooking` of the
  booking screen together with the `fetchData` snapshot it reads;
- `updateBookingToBooked` embeds a storage-level
  `UPDATE seat_bookings SET booking_status = 'booked' WHERE id = ...`
  guarded by the unique index `seat_bookings_unique_booked`
  ON (shift, seat_number, booking_date) WHERE booking_status = 'booked';
- `handlePaymentAction` embeds the admin cash-payment approve/reject handler;
- `confirmCashPayment` embeds the admission cash-payment submission;
- `handleCheckIn` embeds the attendance check-in handler;
- `availability` embeds the home-screen seat availability computation.

Identifiers (uuid), dates (YYYY-MM-DD strings) and timestamps are modelled
as `Nat`: the source only ever compares them for equality, except the
end-date computation which is abstracted by `addMonths`.
-/

namespace LCL

inductive Shift
| morning
| noon
| evening
| night
deriving DecidableEq, Repr

inductive BookingStatus
| pending
| booked
| available
deriving DecidableEq, Repr

inductive AdmPayStatus
| pending
| paid
deriving DecidableEq, Repr

inductive CashStatus
| pending
| approved
| rejected
deriving DecidableEq, Repr

inductive AttStatus
| present
| absent
deriving DecidableEq, Repr

structure SeatBooking where
  id : Nat
  user_id : Nat
  shift : Shift
  seat_number : String
  booking_status : BookingStatus
  booking_date : Nat
deriving DecidableEq, Repr

structure CashPayment where
  id : Nat
  user_id : Nat
  booking_id : Option Nat
  admission_id : Option Nat
  amount : Nat
  status : CashStatus
deriving DecidableEq, Repr

structure Admission where
  id : Nat
  user_id : Nat
  selected_shifts : List Shift
  duration : Nat
  total_amount : Nat
  payment_status : AdmPayStatus
  payment_date : Option Nat
  start_date : Option Nat
  end_date : Option Nat
deriving DecidableEq, Repr

structure AttendanceRecord where
  user_id : Nat
  shift : Shift
  date : Nat
  check_in_time : Option Nat
  check_out_time : Option Nat
  status : AttStatus
  reason : Option String
deriving DecidableEq, Repr

/-- The `shiftEnded` switch of `POST /check-absent-students`
(check-absent-students.ts lines 36-52): morning ends at hour 11, noon at 16,
evening at 21; night counts as ended while the hour is in [5, 21). -/
def shiftEnded (shift : Shift) (currentHour : Nat) : Bool :=
  match shift with
  | .morning => decide (11 ≤ currentHour)
  | .noon => decide (16 ≤ currentHour)
  | .evening => decide (21 ≤ currentHour)
  | .night => decide (5 ≤ currentHour) && decide (currentHour < 21)

/-- Modelled from the spec: the Shift Catalog predicate `isNowWithin`
(the repository's `isCurrentTimeInShift` lives in `utils/shiftUtils`, which is
not part of the source snapshot). Windows follow the table in spec section 4.1
and the boundary cases of section 8: each day shift is open strictly before its
end hour, and the night window wraps midnight, open for hour < 5 or hour >= 21. -/
def isNowWithin (shift : Shift) (hour : Nat) : Bool :=
  match shift with
  | .morning => decide (hour < 11)
  | .noon => decide (hour < 16)
  | .evening => decide (hour < 21)
  | .night => decide (hour < 5) || decide (21 ≤ hour)

/-- C6: `shiftHasEnded('night', now)` holds exactly when 5 <= hour < 21;
`isNowWithin('night', _)` is true at 23:59 and 04:59, false at 05:00 and 20:59,
and `shiftHasEnded('night', _)` is its pointwise negation; morning, noon and
evening end exactly at hours 11, 16 and 21. -/
theorem shift_window_boundaries :
    (∀ h : Nat, shiftEnded .night h = (decide (5 ≤ h) && decide (h < 21))) ∧
    isNowWithin .night 23 = true ∧
    isNowWithin .night 4 = true ∧
    isNowWithin .night 5 = false ∧
    isNowWithin .night 20 = false ∧
    (∀ h : Nat, shiftEnded .night h = !(isNowWithin .night h)) ∧
    (∀ h : Nat, shiftEnded .morning h = decide (11 ≤ h)) ∧
    (∀ h : Nat, shiftEnded .noon h = decide (16 ≤ h)) ∧
    (∀ h : Nat, shiftEnded .evening h = decide (21 ≤ h)) := by
  refine ⟨fun h => rfl, rfl, rfl, rfl, rfl, fun h => ?_, fun h => rfl, fun h => rfl,
    fun h => rfl⟩
  rw [Bool.eq_iff_iff]
  simp only [shiftEnded, isNowWithin, Bool.and_eq_true, Bool.not_eq_true',
    Bool.or_eq_false_iff, decide_eq_true_eq, decide_eq_false_iff_not]
  omega

structure AbsentRecord where
  user_id : Nat
  shift : Shift
  date : Nat
  status : String
  reason : String
deriving DecidableEq, Repr

structure AbsentResponse where
  success : Bool
  date : Nat
  absentCount : Nat
  absentStudents : List AbsentRecord
deriving DecidableEq, Repr

structure AbsenceDb where
  admissions : List Admission
  attendance : List AttendanceRecord
deriving DecidableEq, Repr

/-- The `hasCheckedIn` test of the absence loop: some fetched attendance record
matches the user and shift and has a non-null check_in_time. -/
def hasCheckedIn (records : List AttendanceRecord) (uid : Nat) (s : Shift) : Bool :=
  records.any fun r => decide (r.user_id = uid) && decide (r.shift = s) && r.check_in_time.isSome

/-- One iteration of the inner shift loop of `POST /check-absent-students`:
push an absent record when the shift has ended and the student has not
checked in. -/
def absentPush (checkDate : Nat) (records : List AttendanceRecord) (currentHour : Nat)
    (uid : Nat) (acc : List AbsentRecord) (s : Shift) : List AbsentRecord :=
  if shiftEnded s currentHour then
    if hasCheckedIn records uid s then acc
    else acc ++ [⟨uid, s, checkDate, "absent", "no_checkin"⟩]
  else acc

/-- `POST /check-absent-students` (check-absent-students.ts lines 3-93):
reads paid admissions and the attendance rows of `checkDate`, walks every
(admission, selected shift) pair, collects the absent records, and returns
them together with the unchanged database: the handler performs no insert
(the source only logs the computed list). `dateArg` is the optional request
body date, `today` the value of `new Date()` split to a date, `currentHour`
the wall-clock hour of the call. -/
def POSTcheckAbsent (db : AbsenceDb) (dateArg : Option Nat) (today : Nat)
    (currentHour : Nat) : AbsenceDb × AbsentResponse :=
  let checkDate := dateArg.getD today
  let admissions := db.admissions.filter fun a => decide (a.payment_status = .paid)
  let attendanceRecords := db.attendance.filter fun r => decide (r.date = checkDate)
  let absentStudents :=
    admissions.foldl (fun acc adm =>
      adm.selected_shifts.foldl (absentPush checkDate attendanceRecords currentHour adm.user_id)
        acc) []
  (db, ⟨true, checkDate, absentStudents.length, absentStudents⟩)

/-- The flag of the spec's absence algorithm for one (admission, shift) pair:
the shift window has ended at the wall-clock hour and no fetched attendance
row of the student for that shift has a non-null check_in_time. -/
def absenceFlag (records : List AttendanceRecord) (currentHour : Nat) (uid : Nat)
    (s : Shift) : Bool :=
  shiftEnded s currentHour && !(hasCheckedIn records uid s)

/-- The spec's description of the absent list: exactly one entry
{user_id, shift, date, status: absent, reason: no_checkin} for each
(paid admission, selected shift) pair whose flag holds. -/
def absentSpecList (db : AbsenceDb) (checkDate currentHour : Nat) : List AbsentRecord :=
  (db.admissions.filter fun a => decide (a.payment_status = .paid)).flatMap fun a =>
    ((a.selected_shifts.filter
        (absenceFlag (db.attendance.filter fun r => decide (r.date = checkDate))
          currentHour a.user_id)).map
      fun s => ⟨a.user_id, s, checkDate, "absent", "no_checkin"⟩)

lemma absentPush_foldl (checkDate : Nat) (records : List AttendanceRecord)
    (currentHour : Nat) (uid : Nat) (shifts : List Shift) (acc : List AbsentRecord) :
    shifts.foldl (absentPush checkDate records currentHour uid) acc =
      acc ++ ((shifts.filter (absenceFlag records currentHour uid)).map
        fun s => ⟨uid, s, checkDate, "absent", "no_checkin"⟩) := by
  induction shifts generalizing acc with
  | nil => simp
  | cons s rest ih =>
    rw [List.foldl_cons, ih, List.filter_cons]
    by_cases hend : shiftEnded s currentHour
    · by_cases hin : hasCheckedIn records uid s
      · simp [absentPush, absenceFlag, hend, hin]
      · simp [absentPush, absenceFlag, hend, hin]
    · simp [absentPush, absenceFlag, hend]

lemma absent_outer_foldl (checkDate : Nat) (records : List AttendanceRecord)
    (currentHour : Nat) (admissions : List Admission) (acc : List AbsentRecord) :
    admissions.foldl (fun acc2 adm =>
        adm.selected_shifts.foldl
          (absentPush checkDate records currentHour adm.user_id) acc2) acc =
      acc ++ admissions.flatMap fun a =>
        ((a.selected_shifts.filter (absenceFlag records currentHour a.user_id)).map
          fun s => ⟨a.user_id, s, checkDate, "absent", "no_checkin"⟩) := by
  induction admissions generalizing acc with
  | nil => simp
  | cons a rest ih =>
    rw [List.foldl_cons, ih, absentPush_foldl, List.flatMap_cons, List.append_assoc]

/-- C4: the absence endpoint returns success, the requested date (defaulting to
today), a count equal to the length of the returned list, and the returned list
is exactly the spec's list: one absent entry with status `absent` and reason
`no_checkin` per (paid admission, selected shift) pair whose shift has ended at
the wall-clock hour with no checked-in attendance row; membership is
characterised declaratively. -/
theorem POSTcheckAbsent_correct (db : AbsenceDb) (dateArg : Option Nat)
    (today currentHour : Nat) :
    (POSTcheckAbsent db dateArg today currentHour).2.success = true ∧
    (POSTcheckAbsent db dateArg today currentHour).2.date = dateArg.getD today ∧
    (POSTcheckAbsent db dateArg today currentHour).2.absentCount =
      (POSTcheckAbsent db dateArg today currentHour).2.absentStudents.length ∧
    (POSTcheckAbsent db dateArg today currentHour).2.absentStudents =
      absentSpecList db (dateArg.getD today) currentHour ∧
    (∀ rec : AbsentRecord,
      rec ∈ (POSTcheckAbsent db dateArg today currentHour).2.absentStudents ↔
        ∃ a ∈ db.admissions, a.payment_status = .paid ∧
          rec.user_id = a.user_id ∧ rec.shift ∈ a.selected_shifts ∧
          shiftEnded rec.shift currentHour = true ∧
          ¬(∃ r ∈ db.attendance, r.date = dateArg.getD today ∧
              r.user_id = a.user_id ∧ r.shift = rec.shift ∧ r.check_in_time ≠ none) ∧
          rec.date = dateArg.getD today ∧ rec.status = "absent" ∧
          rec.reason = "no_checkin") := by
  have hlist : (POSTcheckAbsent db dateArg today currentHour).2.absentStudents =
      absentSpecList db (dateArg.getD today) currentHour := by
    simp only [POSTcheckAbsent, absentSpecList]
    rw [absent_outer_foldl, List.nil_append]
  have hchk : ∀ (uid : Nat) (s : Shift),
      hasCheckedIn (db.attendance.filter fun r => decide (r.date = dateArg.getD today))
          uid s = true ↔
        ∃ r ∈ db.attendance, r.date = dateArg.getD today ∧ r.user_id = uid ∧
          r.shift = s ∧ r.check_in_time ≠ none := by
    intro uid s
    simp only [hasCheckedIn, List.any_eq_true, List.mem_filter, Bool.and_eq_true,
      decide_eq_true_eq, Option.isSome_iff_ne_none]
    constructor
    · rintro ⟨r, ⟨hr, hd⟩, ⟨huid, hs⟩, hc⟩
      exact ⟨r, hr, hd, huid, hs, hc⟩
    · rintro ⟨r, hr, hd, huid, hs, hc⟩
      exact ⟨r, ⟨hr, hd⟩, ⟨huid, hs⟩, hc⟩
  refine ⟨rfl, rfl, rfl, hlist, fun rec => ?_⟩
  rw [hlist]
  unfold absentSpecList
  simp only [List.mem_flatMap, List.mem_filter, List.mem_map, decide_eq_true_eq]
  constructor
  · rintro ⟨a, ⟨ha, hpaid⟩, s, ⟨hs, hflag⟩, rfl⟩
    rw [absenceFlag, Bool.and_eq_true, Bool.not_eq_true'] at hflag
    refine ⟨a, ha, hpaid, rfl, hs, hflag.1, ?_, rfl, rfl, rfl⟩
    intro hex
    rw [← hchk a.user_id s] at hex
    rw [hex] at hflag
    exact Bool.noConfusion hflag.2
  · rintro ⟨a, ha, hpaid, huid, hshift, hend, hnoatt, hdate, hstat, hreason⟩
    refine ⟨a, ⟨ha, hpaid⟩, rec.shift, ⟨hshift, ?_⟩, ?_⟩
    · rw [absenceFlag, Bool.and_eq_true, Bool.not_eq_true']
      refine ⟨hend, ?_⟩
      rw [Bool.eq_false_iff]
      intro hex
      rw [hchk a.user_id rec.shift] at hex
      exact hnoatt hex
    · cases rec
      simp_all

/-- The concrete database of the C3 counterexample: one paid admission for
user 7 with the morning shift selected and an empty attendance table. -/
def c3Db : AbsenceDb :=
  ⟨[⟨1, 7, [.morning], 1, 299, .paid, none, none, none⟩], []⟩

/-- C3 counterexample: at 12:00 the detector flags user 7 as absent for the
morning shift (absentCount = 1) yet persists nothing: the attendance table of
the post-state holds no absent row, contradicting the claim that one absent
attendance row per flagged pair is persisted. -/
theorem POSTcheckAbsent_persists_nothing :
    (POSTcheckAbsent c3Db none 11 12).2.absentCount = 1 ∧
    (POSTcheckAbsent c3Db none 11 12).1.attendance = [] := by
  constructor
  · rfl
  · rfl

/-- C3 amended: the absence endpoint leaves the database unchanged (it
computes and returns the absent set without persisting rows), and re-running
it for the same date at the same hour returns the same response — idempotence
holds vacuously because the handler performs no writes. -/
theorem POSTcheckAbsent_idempotent (db : AbsenceDb) (dateArg : Option Nat)
    (today currentHour : Nat) :
    (POSTcheckAbsent db dateArg today currentHour).1 = db ∧
    (POSTcheckAbsent ((POSTcheckAbsent db dateArg today currentHour).1)
        dateArg today currentHour).2 =
      (POSTcheckAbsent db dateArg today currentHour).2 := by
  exact ⟨rfl, rfl⟩

/-- The key of the partial unique index `seat_bookings_unique_booked`:
(shift, seat_number, booking_date). -/
def bkey (b : SeatBooking) : Shift × String × Nat :=
  (b.shift, b.seat_number, b.booking_date)

/-- Keys of the rows the partial index covers (booking_status = 'booked'). -/
def bookedKeys (db : List SeatBooking) : List (Shift × String × Nat) :=
  (db.filter fun b => decide (b.booking_status = .booked)).map bkey

/-- The storage invariant of `seat_bookings_unique_booked`: at most one row
with booking_status = 'booked' per (shift, seat_number, booking_date). -/
def BookedUnique (db : List SeatBooking) : Prop := (bookedKeys db).Nodup

instance (db : List SeatBooking) : Decidable (BookedUnique db) := by
  unfold BookedUnique
  infer_instance

/-- `UPDATE seat_bookings SET booking_status = 'booked' WHERE id = bid`,
applied to one row. -/
def setBookedRow (bid : Nat) (b : SeatBooking) : SeatBooking :=
  if b.id = bid then {b with booking_status := .booked} else b

inductive UpdateResult
| ok (db : List SeatBooking)
| uniqueViolation
deriving DecidableEq, Repr

/-- The storage-level transition to 'booked': the update statement commits only
if the resulting table still satisfies the partial unique index
`seat_bookings_unique_booked`; otherwise the statement is rejected and the
table is unchanged. This is the only place the at-most-one-booked invariant is
enforced — the application code (`handlePaymentAction`) issues the update with
no seat check of its own. -/
def updateBookingToBooked (db : List SeatBooking) (bid : Nat) : UpdateResult :=
  let db2 := db.map (setBookedRow bid)
  if BookedUnique db2 then .ok db2 else .uniqueViolation

lemma setBookedRow_of_ne {bid : Nat} {b : SeatBooking} (h : ¬b.id = bid) :
    setBookedRow bid b = b := by
  simp [setBookedRow, h]

lemma setBookedRow_of_eq {bid : Nat} {b : SeatBooking} (h : b.id = bid) :
    setBookedRow bid b = {b with booking_status := .booked} := by
  simp [setBookedRow, h]

lemma map_setBookedRow_of_forall_ne {l : List SeatBooking} {bid : Nat}
    (h : ∀ b ∈ l, ¬b.id = bid) : l.map (setBookedRow bid) = l := by
  induction l with
  | nil => rfl
  | cons a t ih =>
    rw [List.map_cons, setBookedRow_of_ne (h a (List.mem_cons_self a t)),
      ih fun b hb => h b (List.mem_cons_of_mem a hb)]

lemma mem_bookedKeys_map_set {l : List SeatBooking} {bid : Nat}
    {x : Shift × String × Nat} (hx : x ∈ bookedKeys (l.map (setBookedRow bid))) :
    x ∈ bookedKeys l ∨ ∃ d ∈ l, d.id = bid ∧ x = bkey d := by
  simp only [bookedKeys, List.mem_map, List.mem_filter, decide_eq_true_eq] at hx ⊢
  obtain ⟨b, ⟨hb, hbooked⟩, rfl⟩ := hx
  obtain ⟨c, hc, hcb⟩ := hb
  subst hcb
  by_cases hid : c.id = bid
  · right
    refine ⟨c, hc, hid, ?_⟩
    rw [setBookedRow_of_eq hid]
    rfl
  · left
    rw [setBookedRow_of_ne hid] at hbooked ⊢
    exact ⟨c, ⟨hc, hbooked⟩, rfl⟩

lemma bookedKeys_cons_booked {a : SeatBooking} {t : List SeatBooking}
    (h : a.booking_status = .booked) :
    bookedKeys (a :: t) = bkey a :: bookedKeys t := by
  simp [bookedKeys, List.filter_cons, h]

lemma bookedKeys_cons_not_booked {a : SeatBooking} {t : List SeatBooking}
    (h : ¬a.booking_status = .booked) :
    bookedKeys (a :: t) = bookedKeys t := by
  simp [bookedKeys, List.filter_cons, h]

/-- Setting row `bid` to 'booked' keeps the partial index satisfied when ids
are unique, the table already satisfied it, the target row has key `k`, and no
booked row of the table occupies key `k`. -/
lemma bookedUnique_map_set (l : List SeatBooking) (bid : Nat)
    (k : Shift × String × Nat)
    (hids : (l.map fun b => b.id).Nodup)
    (hnd : BookedUnique l)
    (hk : ∀ c ∈ l, c.id = bid → bkey c = k)
    (hfree : ∀ c ∈ l, c.booking_status = .booked → ¬bkey c = k) :
    BookedUnique (l.map (setBookedRow bid)) := by
  induction l with
  | nil => simp [BookedUnique, bookedKeys]
  | cons a t ih =>
    rw [List.map_cons] at hids
    have hids_t : (t.map fun b => b.id).Nodup := hids.of_cons
    have haid : ∀ b ∈ t, ¬b.id = a.id := by
      intro b hb heq
      exact (List.nodup_cons.mp hids).1 (heq ▸ List.mem_map_of_mem (fun b => b.id) hb)
    rw [List.map_cons]
    by_cases hid : a.id = bid
    · have hrest : t.map (setBookedRow bid) = t :=
        map_setBookedRow_of_forall_ne fun b hb hbe => haid b hb (hbe.trans hid.symm)
      have hka : bkey a = k := hk a (List.mem_cons_self a t) hid
      have hanb : ¬a.booking_status = .booked := by
        intro hab
        exact hfree a (List.mem_cons_self a t) hab hka
      rw [setBookedRow_of_eq hid, hrest]
      unfold BookedUnique
      rw [bookedKeys_cons_booked rfl]
      have hbk : bkey {a with booking_status := BookingStatus.booked} = k := hka
      rw [hbk]
      refine List.nodup_cons.mpr ⟨?_, ?_⟩
      · intro hkmem
        simp only [bookedKeys, List.mem_map, List.mem_filter, decide_eq_true_eq] at hkmem
        obtain ⟨d, ⟨hd, hdb⟩, rfl⟩ := hkmem
        exact hfree d (List.mem_cons_of_mem a hd) hdb rfl
      · have := hnd
        unfold BookedUnique at this
        rwa [bookedKeys_cons_not_booked hanb] at this
    · have hih : BookedUnique (t.map (setBookedRow bid)) := by
        refine ih hids_t ?_ (fun c hc => hk c (List.mem_cons_of_mem a hc))
          (fun c hc => hfree c (List.mem_cons_of_mem a hc))
        unfold BookedUnique at hnd ⊢
        by_cases hab : a.booking_status = .booked
        · rw [bookedKeys_cons_booked hab] at hnd
          exact hnd.of_cons
        · rwa [bookedKeys_cons_not_booked hab] at hnd
      rw [setBookedRow_of_ne hid]
      by_cases hab : a.booking_status = .booked
      · unfold BookedUnique
        rw [bookedKeys_cons_booked hab]
        refine List.nodup_cons.mpr ⟨?_, hih⟩
        intro hmem
        rcases mem_bookedKeys_map_set hmem with hold | ⟨d, hd, hdid, hdk⟩
        · unfold BookedUnique at hnd
          rw [bookedKeys_cons_booked hab] at hnd
          exact (List.nodup_cons.mp hnd).1 hold
        · have hdk2 : bkey d = k := hk d (List.mem_cons_of_mem a hd) hdid
          exact hfree a (List.mem_cons_self a t) hab (hdk.trans hdk2)
      · unfold BookedUnique
        rw [bookedKeys_cons_not_booked hab]
        exact hih

/-- Two distinct booked rows with the same key violate the partial index. -/
lemma not_bookedUnique_of_two {l : List SeatBooking} {x y : SeatBooking}
    (hx : x ∈ l) (hy : y ∈ l) (hxb : x.booking_status = .booked)
    (hyb : y.booking_status = .booked) (hne : ¬x = y) (hkey : bkey x = bkey y) :
    ¬BookedUnique l := by
  intro h
  have hx2 : x ∈ l.filter fun b => decide (b.booking_status = .booked) :=
    List.mem_filter.mpr ⟨hx, by simp [hxb]⟩
  have hy2 : y ∈ l.filter fun b => decide (b.booking_status = .booked) :=
    List.mem_filter.mpr ⟨hy, by simp [hyb]⟩
  exact hne (List.inj_on_of_nodup_map h hx2 hy2 hkey)

/-- C1: the partial unique index is the storage-layer guard: (a) every table a
successful booked-transition produces satisfies the at-most-one-booked-row
invariant; (b) for two pending requests for the same free seat, approving the
first succeeds and approving the second is rejected by the index (the state
keeps the first booking booked and the second pending): exactly one of two
concurrent (serialised) approvals succeeds. -/
theorem seat_bookings_unique_booked_enforced :
    (∀ (db : List SeatBooking) (bid : Nat) (db2 : List SeatBooking),
        updateBookingToBooked db bid = .ok db2 → BookedUnique db2) ∧
    (∀ (db : List SeatBooking) (b1 b2 : SeatBooking),
        b1 ∈ db → b2 ∈ db → ¬b1.id = b2.id → bkey b1 = bkey b2 →
        b1.booking_status = .pending → b2.booking_status = .pending →
        (db.map fun b => b.id).Nodup → BookedUnique db →
        (∀ c ∈ db, c.booking_status = .booked → ¬bkey c = bkey b1) →
        ∃ db1, updateBookingToBooked db b1.id = .ok db1 ∧ BookedUnique db1 ∧
          {b1 with booking_status := BookingStatus.booked} ∈ db1 ∧ b2 ∈ db1 ∧
          updateBookingToBooked db1 b2.id = .uniqueViolation) := by
  constructor
  · intro db bid db2 hok
    unfold updateBookingToBooked at hok
    by_cases h : BookedUnique (db.map (setBookedRow bid))
    · rw [if_pos h] at hok
      cases hok
      exact h
    · rw [if_neg h] at hok
      exact absurd hok (by simp)
  · intro db b1 b2 hb1 hb2 hne hkey hp1 hp2 hids hnd hfree
    have hinj : ∀ c ∈ db, ∀ d ∈ db, c.id = d.id → c = d := by
      intro c hc d hd hcd
      exact List.inj_on_of_nodup_map hids hc hd hcd
    have hk : ∀ c ∈ db, c.id = b1.id → bkey c = bkey b1 := by
      intro c hc hcid
      rw [hinj c hc b1 hb1 hcid]
    have huniq1 : BookedUnique (db.map (setBookedRow b1.id)) :=
      bookedUnique_map_set db b1.id (bkey b1) hids hnd hk hfree
    refine ⟨db.map (setBookedRow b1.id), ?_, huniq1, ?_, ?_, ?_⟩
    · unfold updateBookingToBooked
      rw [if_pos huniq1]
    · exact List.mem_map.mpr ⟨b1, hb1, setBookedRow_of_eq rfl⟩
    · exact List.mem_map.mpr ⟨b2, hb2, setBookedRow_of_ne fun h => hne h.symm⟩
    · unfold updateBookingToBooked
      have hb1m : {b1 with booking_status := BookingStatus.booked} ∈
          db.map (setBookedRow b1.id) :=
        List.mem_map.mpr ⟨b1, hb1, setBookedRow_of_eq rfl⟩
      have hb2m : b2 ∈ db.map (setBookedRow b1.id) :=
        List.mem_map.mpr ⟨b2, hb2, setBookedRow_of_ne fun h => hne h.symm⟩
      have hx : {b1 with booking_status := BookingStatus.booked} ∈
          (db.map (setBookedRow b1.id)).map (setBookedRow b2.id) :=
        List.mem_map.mpr ⟨{b1 with booking_status := BookingStatus.booked}, hb1m,
          setBookedRow_of_ne hne⟩
      have hy : {b2 with booking_status := BookingStatus.booked} ∈
          (db.map (setBookedRow b1.id)).map (setBookedRow b2.id) :=
        List.mem_map.mpr ⟨b2, hb2m, setBookedRow_of_eq rfl⟩
      have hxyne : ¬({b1 with booking_status := BookingStatus.booked} =
          {b2 with booking_status := BookingStatus.booked}) := by
        intro h
        have hid2 : ({b1 with booking_status := BookingStatus.booked} : SeatBooking).id =
            ({b2 with booking_status := BookingStatus.booked} : SeatBooking).id :=
          congrArg SeatBooking.id h
        exact hne hid2
      have hviol : ¬BookedUnique
          ((db.map (setBookedRow b1.id)).map (setBookedRow b2.id)) :=
        not_bookedUnique_of_two hx hy rfl rfl hxyne hkey
      rw [if_neg hviol]

/-- Two pending requests for seat A12, morning shift, same date, ids 1 and 2. -/
def c1Db : List SeatBooking :=
  [⟨1, 10, .morning, "A12", .pending, 0⟩, ⟨2, 11, .morning, "A12", .pending, 0⟩]

/-- Witness for C1 at the concrete table `c1Db`: approving booking 1 succeeds
and the subsequent approval of booking 2 for the same seat is rejected by the
partial unique index. -/
theorem seat_bookings_unique_booked_enforced_witness :
    ∃ db1, updateBookingToBooked c1Db 1 = .ok db1 ∧ BookedUnique db1 ∧
      {(⟨1, 10, .morning, "A12", .pending, 0⟩ : SeatBooking) with
          booking_status := BookingStatus.booked} ∈ db1 ∧
      (⟨2, 11, .morning, "A12", .pending, 0⟩ : SeatBooking) ∈ db1 ∧
      updateBookingToBooked db1 2 = .uniqueViolation :=
  seat_bookings_unique_booked_enforced.2 c1Db
    ⟨1, 10, .morning, "A12", .pending, 0⟩ ⟨2, 11, .morning, "A12", .pending, 0⟩
    (by decide) (by decide) (by decide) (by decide) (by decide) (by decide)
    (by decide) (by decide) (by decide)

/-- Outcome of a seat-booking request on the booking screen. -/
inductive BookingRequestResult
| alreadyBooked
| pendingPaymentRequest
| submitted
deriving DecidableEq, Repr

/-- `handleSeatBooking` / `handleDirectBooking` of the booking screen together
with the snapshot its `fetchData` reads: `userBookings` is the caller's subset
of today's rows fetched with booking_status = 'booked'; `pendingCashPayments`
are the caller's pending cash payments with a non-null booking_id. The request
fails as Already Booked when the caller has a fetched (booked) row for the
selected shift, fails as Pending Payment Request when any pending booking
payment exists, and otherwise inserts a pending seat_bookings row plus a
linked pending cash_payments row of amount 50. -/
def requestBooking (bookings : List SeatBooking) (payments : List CashPayment)
    (uid : Nat) (selectedShift : Shift) (selectedSeat : String) (today : Nat)
    (newBookingId newPaymentId : Nat) :
    BookingRequestResult × List SeatBooking × List CashPayment :=
  let bookingsData := bookings.filter fun b =>
    decide (b.booking_date = today) && decide (b.booking_status = .booked)
  let userBookings := bookingsData.filter fun b => decide (b.user_id = uid)
  let pendingCashPayments := payments.filter fun p =>
    decide (p.user_id = uid) && decide (p.status = .pending) && p.booking_id.isSome
  match userBookings.find? fun b => decide (b.shift = selectedShift) with
  | some _ => (.alreadyBooked, bookings, payments)
  | none =>
    if pendingCashPayments.any fun p => p.booking_id.isSome then
      (.pendingPaymentRequest, bookings, payments)
    else
      (.submitted,
        bookings ++ [⟨newBookingId, uid, selectedShift, selectedSeat, .pending, today⟩],
        payments ++ [⟨newPaymentId, uid, some newBookingId, none, 50, .pending⟩])

/-- A state in which user 7 already holds a PENDING booking row for
(morning, today 0) and has no pending cash payment. -/
def c2Bookings : List SeatBooking := [⟨1, 7, .morning, "A12", .pending, 0⟩]

/-- C2 counterexample: user 7 already holds a pending row for
(user 7, morning, date 0), yet requesting seat A13 for the same shift and date
does not fail with AlreadyBooked — it inserts a second row (the pre-check only
sees rows fetched with booking_status = 'booked'). -/
theorem requestBooking_pending_not_blocked :
    (requestBooking c2Bookings [] 7 .morning "A13" 0 2 3).1 =
        BookingRequestResult.submitted ∧
    (requestBooking c2Bookings [] 7 .morning "A13" 0 2 3).2.1.length = 2 := by
  constructor
  · rfl
  · rfl

/-- C2 amended: the request fails with AlreadyBooked (inserting nothing) when
the caller already holds a BOOKED row for (userId, shift, date); a pending
booking row does not trigger AlreadyBooked — instead, any pending
booking-linked cash payment of the caller blocks the request (no insert)
with a pending-payment message; when neither holds, a pending seat_bookings
row and a linked pending cash_payments row are inserted. -/
theorem requestBooking_spec (bookings : List SeatBooking)
    (payments : List CashPayment) (uid : Nat) (selectedShift : Shift)
    (selectedSeat : String) (today : Nat) (newBookingId newPaymentId : Nat) :
    ((∃ b ∈ bookings, b.user_id = uid ∧ b.shift = selectedShift ∧
        b.booking_date = today ∧ b.booking_status = .booked) →
      requestBooking bookings payments uid selectedShift selectedSeat today
          newBookingId newPaymentId = (.alreadyBooked, bookings, payments)) ∧
    (¬(∃ b ∈ bookings, b.user_id = uid ∧ b.shift = selectedShift ∧
        b.booking_date = today ∧ b.booking_status = .booked) →
      (∃ p ∈ payments, p.user_id = uid ∧ p.status = .pending ∧
        p.booking_id ≠ none) →
      requestBooking bookings payments uid selectedShift selectedSeat today
          newBookingId newPaymentId = (.pendingPaymentRequest, bookings, payments)) ∧
    (¬(∃ b ∈ bookings, b.user_id = uid ∧ b.shift = selectedShift ∧
        b.booking_date = today ∧ b.booking_status = .booked) →
      ¬(∃ p ∈ payments, p.user_id = uid ∧ p.status = .pending ∧
        p.booking_id ≠ none) →
      requestBooking bookings payments uid selectedShift selectedSeat today
          newBookingId newPaymentId = (.submitted,
        bookings ++ [⟨newBookingId, uid, selectedShift, selectedSeat, .pending, today⟩],
        payments ++ [⟨newPaymentId, uid, some newBookingId, none, 50, .pending⟩])) := by
  have hfind : (∀ b ∈ (bookings.filter fun b =>
      decide (b.booking_date = today) && decide (b.booking_status = .booked)).filter
        (fun b => decide (b.user_id = uid)),
      ¬(decide (b.shift = selectedShift) = true)) ↔
      ¬(∃ b ∈ bookings, b.user_id = uid ∧ b.shift = selectedShift ∧
        b.booking_date = today ∧ b.booking_status = .booked) := by
    simp only [List.mem_filter, Bool.and_eq_true, decide_eq_true_eq, not_exists]
    constructor
    · intro h
      rintro b ⟨hb, huid, hs, hd, hst⟩
      exact h b ⟨⟨hb, hd, hst⟩, huid⟩ hs
    · rintro h b ⟨⟨hb, hd, hst⟩, huid⟩ hs
      exact h b ⟨hb, huid, hs, hd, hst⟩
  have hany : ((payments.filter fun p =>
      decide (p.user_id = uid) && decide (p.status = .pending) &&
        p.booking_id.isSome).any fun p => p.booking_id.isSome) = true ↔
      (∃ p ∈ payments, p.user_id = uid ∧ p.status = .pending ∧
        p.booking_id ≠ none) := by
    simp only [List.any_eq_true, List.mem_filter, Bool.and_eq_true,
      decide_eq_true_eq, Option.isSome_iff_ne_none]
    constructor
    · rintro ⟨p, ⟨hp, ⟨huid, hst⟩, hb⟩, _⟩
      exact ⟨p, hp, huid, hst, hb⟩
    · rintro ⟨p, hp, huid, hst, hb⟩
      exact ⟨p, ⟨hp, ⟨huid, hst⟩, hb⟩, hb⟩
  refine ⟨?_, ?_, ?_⟩
  · intro hex
    simp only [requestBooking]
    rcases hfound : List.find? (fun b => decide (b.shift = selectedShift))
        (List.filter (fun b => decide (b.user_id = uid))
          (List.filter (fun b => decide (b.booking_date = today) &&
            decide (b.booking_status = BookingStatus.booked)) bookings)) with _ | b
    · rw [List.find?_eq_none] at hfound
      exact absurd hex (hfind.mp hfound)
    · rw [hfound]
  · intro hnotb hpend
    simp only [requestBooking]
    rcases hfound : List.find? (fun b => decide (b.shift = selectedShift))
        (List.filter (fun b => decide (b.user_id = uid))
          (List.filter (fun b => decide (b.booking_date = today) &&
            decide (b.booking_status = BookingStatus.booked)) bookings)) with _ | b
    · rw [hfound]
      simp only
      rw [if_pos (hany.mpr hpend)]
    · have hsh := List.find?_some hfound
      have hbmem := List.mem_filter.mp (List.mem_filter.mp (List.mem_of_find?_eq_some hfound)).1
      have hbuid := (List.mem_filter.mp (List.mem_of_find?_eq_some hfound)).2
      simp only [Bool.and_eq_true, decide_eq_true_eq] at hsh hbmem hbuid
      exact absurd ⟨b, hbmem.1, hbuid, hsh, hbmem.2.1, hbmem.2.2⟩ hnotb
  · intro hnotb hnopend
    simp only [requestBooking]
    rcases hfound : List.find? (fun b => decide (b.shift = selectedShift))
        (List.filter (fun b => decide (b.user_id = uid))
          (List.filter (fun b => decide (b.booking_date = today) &&
            decide (b.booking_status = BookingStatus.booked)) bookings)) with _ | b
    · rw [hfound]
      simp only
      rw [if_neg]
      intro hc
      exact hnopend (hany.mp hc)
    · have hsh := List.find?_some hfound
      have hbmem := List.mem_filter.mp (List.mem_filter.mp (List.mem_of_find?_eq_some hfound)).1
      have hbuid := (List.mem_filter.mp (List.mem_of_find?_eq_some hfound)).2
      simp only [Bool.and_eq_true, decide_eq_true_eq] at hsh hbmem hbuid
      exact absurd ⟨b, hbmem.1, hbuid, hsh, hbmem.2.1, hbmem.2.2⟩ hnotb

/-- Witness for the amended C2 at concrete states: a booked row for the shift
yields AlreadyBooked with nothing inserted; a pending booking payment yields
the pending-payment rejection; a clean state yields the pending insert with
its linked payment. -/
theorem requestBooking_spec_witness :
    requestBooking [⟨1, 7, .morning, "A12", .booked, 0⟩] [] 7 .morning "A13" 0 2 3 =
        (.alreadyBooked, [⟨1, 7, .morning, "A12", .booked, 0⟩], []) ∧
    requestBooking [] [⟨9, 7, some 4, none, 50, .pending⟩] 7 .morning "A13" 0 2 3 =
        (.pendingPaymentRequest, [], [⟨9, 7, some 4, none, 50, .pending⟩]) ∧
    requestBooking [] [] 7 .morning "A13" 0 2 3 =
        (.submitted, [⟨2, 7, .morning, "A13", .pending, 0⟩],
          [⟨3, 7, some 2, none, 50, .pending⟩]) := by
  refine ⟨?_, ?_, ?_⟩
  · exact (requestBooking_spec [⟨1, 7, .morning, "A12", .booked, 0⟩] [] 7 .morning
      "A13" 0 2 3).1 (by decide)
  · exact (requestBooking_spec [] [⟨9, 7, some 4, none, 50, .pending⟩] 7 .morning
      "A13" 0 2 3).2.1 (by decide) (by decide)
  · exact (requestBooking_spec [] [] 7 .morning "A13" 0 2 3).2.2 (by decide) (by decide)

/-- The fixed seat capacity of the home screen. -/
def totalSeats : Nat := 50

/-- The availability computation of the home screen `fetchData`
(app/(tabs)/index.tsx lines 86-104): bookings for today are fetched with
booking_status = 'booked'; the available count for a shift is the total
capacity minus the number of fetched rows of that shift. -/
def availability (bookings : List SeatBooking) (today : Nat) (s : Shift) : Int :=
  let bookingsData := bookings.filter fun b =>
    decide (b.booking_date = today) && decide (b.booking_status = .booked)
  let bookedCount := (bookingsData.filter fun b => decide (b.shift = s)).length
  (totalSeats : Int) - bookedCount

/-- C7: availability is 50 minus the number of booked rows of the
(shift, date), and a pending row does not change the reported availability. -/
theorem availability_spec (bookings : List SeatBooking) (today : Nat) (s : Shift) :
    (availability bookings today s =
      50 - ((bookings.filter fun b => decide (b.shift = s ∧
        b.booking_status = .booked ∧ b.booking_date = today)).length : Int)) ∧
    (∀ r : SeatBooking, r.booking_status = .pending →
      availability (r :: bookings) today s = availability bookings today s) := by
  constructor
  · unfold availability totalSeats
    simp only [List.filter_filter]
    have heq : List.filter (fun a => decide (a.shift = s) &&
          (decide (a.booking_date = today) &&
            decide (a.booking_status = BookingStatus.booked))) bookings =
        List.filter (fun b => decide (b.shift = s ∧
          b.booking_status = BookingStatus.booked ∧ b.booking_date = today))
          bookings := by
      apply List.filter_congr
      intro b _
      by_cases h1 : b.shift = s
      case neg => simp [h1]
      case pos =>
        by_cases h2 : b.booking_date = today
        case neg => simp [h1, h2]
        case pos =>
          by_cases h3 : b.booking_status = BookingStatus.booked
          case neg => simp [h1, h2, h3]
          case pos => simp [h1, h2, h3]
    rw [heq]
    norm_num
  · intro r hr
    unfold availability
    simp [List.filter_cons, hr]

/-- Witness for C7 at a concrete state: one booked row and one pending row for
(morning, date 0) give availability 49, and adding another pending row leaves
it at 49. -/
theorem availability_spec_witness :
    availability [⟨1, 7, .morning, "A12", .booked, 0⟩,
        ⟨2, 8, .morning, "A13", .pending, 0⟩] 0 .morning = 49 ∧
    availability ((⟨3, 9, .morning, "A14", .pending, 0⟩ : SeatBooking) ::
        [⟨1, 7, .morning, "A12", .booked, 0⟩,
          ⟨2, 8, .morning, "A13", .pending, 0⟩]) 0 .morning =
      availability [⟨1, 7, .morning, "A12", .booked, 0⟩,
        ⟨2, 8, .morning, "A13", .pending, 0⟩] 0 .morning := by
  constructor
  · decide
  · exact (availability_spec [⟨1, 7, .morning, "A12", .booked, 0⟩,
      ⟨2, 8, .morning, "A13", .pending, 0⟩] 0 .morning).2
      ⟨3, 9, .morning, "A14", .pending, 0⟩ (by decide)

/-- Outcome of submitting an admission cash payment. -/
inductive SubmitCashResult
| duplicateRequest
| submitted
deriving DecidableEq, Repr

/-- `confirmCashPayment` of the payment screen: rejects when the local state
already holds a pending cash payment, then double-checks the cash_payments
table for a pending row of the caller for this admission, and only when both
checks pass inserts a pending cash_payments row linked to the admission. -/
def confirmCashPayment (existingLocal : Option CashPayment)
    (payments : List CashPayment) (uid aid amount newId : Nat) :
    SubmitCashResult × List CashPayment :=
  if existingLocal.isSome then (.duplicateRequest, payments)
  else
    match payments.find? fun p => decide (p.user_id = uid) &&
        decide (p.admission_id = some aid) && decide (p.status = .pending) with
    | some _ => (.duplicateRequest, payments)
    | none => (.submitted, payments ++ [⟨newId, uid, none, some aid, amount, .pending⟩])

/-- C8: a second cash payment for an admission that already has a pending cash
payment of the caller is rejected as a duplicate request with no new
cash_payments row, whatever the screen's local state holds; and on the booking
side, a caller with a pending booking-linked cash payment cannot create a new
booking payment: the booking request leaves the payment table unchanged and is
not submitted. -/
theorem duplicate_cash_payment_rejected (existingLocal : Option CashPayment)
    (payments : List CashPayment) (uid aid amount newId : Nat) :
    ((∃ p ∈ payments, p.user_id = uid ∧ p.admission_id = some aid ∧
        p.status = .pending) →
      confirmCashPayment existingLocal payments uid aid amount newId =
        (.duplicateRequest, payments)) ∧
    (∀ (bookings : List SeatBooking) (selectedShift : Shift)
        (selectedSeat : String) (today newBookingId newPaymentId : Nat),
      (∃ p ∈ payments, p.user_id = uid ∧ p.status = .pending ∧
        p.booking_id ≠ none) →
      (requestBooking bookings payments uid selectedShift selectedSeat today
          newBookingId newPaymentId).2.2 = payments ∧
      (requestBooking bookings payments uid selectedShift selectedSeat today
          newBookingId newPaymentId).1 ≠ .submitted) := by
  constructor
  · intro hex
    unfold confirmCashPayment
    by_cases hloc : existingLocal.isSome
    · rw [if_pos hloc]
    · rw [if_neg hloc]
      rcases hfound : payments.find? (fun p => decide (p.user_id = uid) &&
          decide (p.admission_id = some aid) && decide (p.status = .pending))
          with _ | p
      · rw [List.find?_eq_none] at hfound
        obtain ⟨p, hp, huid, haid, hst⟩ := hex
        exact absurd (by simp [huid, haid, hst]) (hfound p hp)
      · rw [hfound]
  · intro bookings selectedShift selectedSeat today newBookingId newPaymentId hex
    simp only [requestBooking]
    rcases hfound : List.find? (fun b => decide (b.shift = selectedShift))
        (List.filter (fun b => decide (b.user_id = uid))
          (List.filter (fun b => decide (b.booking_date = today) &&
            decide (b.booking_status = BookingStatus.booked)) bookings)) with _ | b
    · rw [hfound]
      simp only
      rw [if_pos]
      · exact ⟨rfl, by simp⟩
      · obtain ⟨p, hp, huid, hst, hb⟩ := hex
        apply List.any_eq_true.mpr
        refine ⟨p, List.mem_filter.mpr ⟨hp, ?_⟩, ?_⟩
        · simp [huid, hst, Option.isSome_iff_ne_none, hb]
        · simp [Option.isSome_iff_ne_none, hb]
    · rw [hfound]
      exact ⟨rfl, by simp⟩

/-- Witness for C8: with a pending cash payment for admission 5 already in the
table, a second submission for admission 5 by user 7 is rejected with no
insert; and with a pending booking payment in the table, a new booking request
by user 7 adds no payment row and is not submitted. -/
theorem duplicate_cash_payment_rejected_witness :
    confirmCashPayment none [⟨9, 7, none, some 5, 549, .pending⟩] 7 5 549 10 =
      (.duplicateRequest, [⟨9, 7, none, some 5, 549, .pending⟩]) ∧
    (requestBooking [] [⟨9, 7, some 4, none, 50, .pending⟩] 7 .morning "A13" 0
        2 3).2.2 = [⟨9, 7, some 4, none, 50, .pending⟩] ∧
    (requestBooking [] [⟨9, 7, some 4, none, 50, .pending⟩] 7 .morning "A13" 0
        2 3).1 ≠ .submitted := by
  refine ⟨?_, ?_⟩
  · exact (duplicate_cash_payment_rejected none
      [⟨9, 7, none, some 5, 549, .pending⟩] 7 5 549 10).1 (by decide)
  · exact (duplicate_cash_payment_rejected none
      [⟨9, 7, some 4, none, 50, .pending⟩] 7 0 0 0).2 [] .morning "A13" 0 2 3
      (by decide)

/-- The wall clock at a check-in attempt: the hour drives the shift-window
test, the tick is the timestamp stored in check_in_time. -/
structure ClockTime where
  hour : Nat
  ts : Nat
deriving DecidableEq, Repr

inductive CheckInResult
| outsideShiftWindow
| alreadyCheckedIn
| shiftAlreadyCompleted
| checkedIn
deriving DecidableEq, Repr

/-- `handleCheckIn` of the attendance screen: rejects outside the shift
window; rejects when the caller's fetched rows for today contain an open row
(check_in set, check_out unset) for the shift, or a completed row (both set);
otherwise inserts a row {check_in_time: now, date: today} whose status is the
storage default 'present' (attendance.status DEFAULT 'present' in the
migration) with no check_out_time and no reason. -/
def handleCheckIn (db : List AttendanceRecord) (uid : Nat) (s : Shift)
    (today : Nat) (now : ClockTime) : CheckInResult × List AttendanceRecord :=
  let todayAttendance := db.filter fun r =>
    decide (r.user_id = uid) && decide (r.date = today)
  if !(isNowWithin s now.hour) then (.outsideShiftWindow, db)
  else
    match todayAttendance.find? fun r => decide (r.shift = s) &&
        r.check_in_time.isSome && !r.check_out_time.isSome with
    | some _ => (.alreadyCheckedIn, db)
    | none =>
      match todayAttendance.find? fun r => decide (r.shift = s) &&
          r.check_in_time.isSome && r.check_out_time.isSome with
      | some _ => (.shiftAlreadyCompleted, db)
      | none =>
        (.checkedIn, db ++ [⟨uid, s, today, some now.ts, none, .present, none⟩])

/-- C5: check-in fails outside the shift window; fails as already-checked-in
when an open row (check_in set, check_out unset) exists for (user, shift,
today); fails as shift-completed when a closed row exists; in each failure
case the table is unchanged; otherwise it inserts a row with
check_in_time = now and status = present. -/
theorem handleCheckIn_spec (db : List AttendanceRecord) (uid : Nat) (s : Shift)
    (today : Nat) (now : ClockTime) :
    (isNowWithin s now.hour = false →
      handleCheckIn db uid s today now = (.outsideShiftWindow, db)) ∧
    (isNowWithin s now.hour = true →
      (∃ r ∈ db, r.user_id = uid ∧ r.date = today ∧ r.shift = s ∧
        r.check_in_time ≠ none ∧ r.check_out_time = none) →
      handleCheckIn db uid s today now = (.alreadyCheckedIn, db)) ∧
    (isNowWithin s now.hour = true →
      ¬(∃ r ∈ db, r.user_id = uid ∧ r.date = today ∧ r.shift = s ∧
        r.check_in_time ≠ none ∧ r.check_out_time = none) →
      (∃ r ∈ db, r.user_id = uid ∧ r.date = today ∧ r.shift = s ∧
        r.check_in_time ≠ none ∧ r.check_out_time ≠ none) →
      handleCheckIn db uid s today now = (.shiftAlreadyCompleted, db)) ∧
    (isNowWithin s now.hour = true →
      ¬(∃ r ∈ db, r.user_id = uid ∧ r.date = today ∧ r.shift = s ∧
        r.check_in_time ≠ none ∧ r.check_out_time = none) →
      ¬(∃ r ∈ db, r.user_id = uid ∧ r.date = today ∧ r.shift = s ∧
        r.check_in_time ≠ none ∧ r.check_out_time ≠ none) →
      handleCheckIn db uid s today now =
        (.checkedIn, db ++ [⟨uid, s, today, some now.ts, none, .present, none⟩])) := by
  have hopen : ∀ r ∈ db.filter fun r =>
        decide (r.user_id = uid) && decide (r.date = today),
      (decide (r.shift = s) && r.check_in_time.isSome &&
        !r.check_out_time.isSome) = true ↔
        (r.user_id = uid ∧ r.date = today ∧ r.shift = s ∧
          r.check_in_time ≠ none ∧ r.check_out_time = none) := by
    intro r hr
    have hm := List.mem_filter.mp hr
    simp only [Bool.and_eq_true, decide_eq_true_eq] at hm
    simp only [Bool.and_eq_true, decide_eq_true_eq, Bool.not_eq_true',
      Bool.eq_false_iff, Option.isSome_iff_ne_none, ne_eq, not_not]
    tauto
  have hclosed : ∀ r ∈ db.filter fun r =>
        decide (r.user_id = uid) && decide (r.date = today),
      (decide (r.shift = s) && r.check_in_time.isSome &&
        r.check_out_time.isSome) = true ↔
        (r.user_id = uid ∧ r.date = today ∧ r.shift = s ∧
          r.check_in_time ≠ none ∧ r.check_out_time ≠ none) := by
    intro r hr
    have hm := List.mem_filter.mp hr
    simp only [Bool.and_eq_true, decide_eq_true_eq] at hm
    simp only [Bool.and_eq_true, decide_eq_true_eq, Option.isSome_iff_ne_none]
    tauto
  have hmemof : ∀ (r : AttendanceRecord), r.user_id = uid → r.date = today →
      r ∈ db → r ∈ db.filter fun r =>
        decide (r.user_id = uid) && decide (r.date = today) := by
    intro r h1 h2 hr
    exact List.mem_filter.mpr ⟨hr, by simp [h1, h2]⟩
  refine ⟨?_, ?_, ?_, ?_⟩
  · intro hwin
    unfold handleCheckIn
    rw [hwin]
    rfl
  · intro hwin hex
    simp only [handleCheckIn, hwin, Bool.not_true, Bool.false_eq_true,
      if_false]
    rcases hfound : List.find? (fun r => decide (r.shift = s) &&
        r.check_in_time.isSome && !r.check_out_time.isSome)
        (List.filter (fun r => decide (r.user_id = uid) && decide (r.date = today))
          db) with _ | r
    · rw [List.find?_eq_none] at hfound
      obtain ⟨r, hr, h1, h2, h3, h4, h5⟩ := hex
      exact absurd ((hopen r (hmemof r h1 h2 hr)).mpr ⟨h1, h2, h3, h4, h5⟩)
        (hfound r (hmemof r h1 h2 hr))
    · rw [hfound]
  · intro hwin hnoopen hex
    simp only [handleCheckIn, hwin, Bool.not_true, Bool.false_eq_true,
      if_false]
    rcases hfound : List.find? (fun r => decide (r.shift = s) &&
        r.check_in_time.isSome && !r.check_out_time.isSome)
        (List.filter (fun r => decide (r.user_id = uid) && decide (r.date = today))
          db) with _ | r
    · rw [hfound]
      simp only
      rcases hfound2 : List.find? (fun r => decide (r.shift = s) &&
          r.check_in_time.isSome && r.check_out_time.isSome)
          (List.filter (fun r => decide (r.user_id = uid) && decide (r.date = today))
            db) with _ | r
      · rw [List.find?_eq_none] at hfound2
        obtain ⟨r, hr, h1, h2, h3, h4, h5⟩ := hex
        exact absurd ((hclosed r (hmemof r h1 h2 hr)).mpr ⟨h1, h2, h3, h4, h5⟩)
          (hfound2 r (hmemof r h1 h2 hr))
      · rw [hfound2]
    · have hp := List.find?_some hfound
      have hm := List.mem_of_find?_eq_some hfound
      obtain ⟨h1, h2, h3, h4, h5⟩ := (hopen r hm).mp hp
      exact absurd ⟨r, (List.mem_filter.mp hm).1, h1, h2, h3, h4, h5⟩ hnoopen
  · intro hwin hnoopen hnoclosed
    simp only [handleCheckIn, hwin, Bool.not_true, Bool.false_eq_true,
      if_false]
    rcases hfound : List.find? (fun r => decide (r.shift = s) &&
        r.check_in_time.isSome && !r.check_out_time.isSome)
        (List.filter (fun r => decide (r.user_id = uid) && decide (r.date = today))
          db) with _ | r
    · rw [hfound]
      simp only
      rcases hfound2 : List.find? (fun r => decide (r.shift = s) &&
          r.check_in_time.isSome && r.check_out_time.isSome)
          (List.filter (fun r => decide (r.user_id = uid) && decide (r.date = today))
            db) with _ | r
      · rw [hfound2]
      · have hp := List.find?_some hfound2
        have hm := List.mem_of_find?_eq_some hfound2
        obtain ⟨h1, h2, h3, h4, h5⟩ := (hclosed r hm).mp hp
        exact absurd ⟨r, (List.mem_filter.mp hm).1, h1, h2, h3, h4, h5⟩ hnoclosed
    · have hp := List.find?_some hfound
      have hm := List.mem_of_find?_eq_some hfound
      obtain ⟨h1, h2, h3, h4, h5⟩ := (hopen r hm).mp hp
      exact absurd ⟨r, (List.mem_filter.mp hm).1, h1, h2, h3, h4, h5⟩ hnoopen

/-- Witness for C5 at concrete states: evening check-in at 18:00 succeeds and
appends the present row; re-checking in with the open row present is rejected;
checking in over a completed row is rejected; night check-in at 12:00 is
outside the window. Each rejection leaves the table unchanged. -/
theorem handleCheckIn_spec_witness :
    handleCheckIn [] 7 .evening 0 ⟨18, 100⟩ =
      (.checkedIn, [⟨7, .evening, 0, some 100, none, .present, none⟩]) ∧
    handleCheckIn [⟨7, .evening, 0, some 100, none, .present, none⟩] 7 .evening 0
        ⟨19, 200⟩ =
      (.alreadyCheckedIn, [⟨7, .evening, 0, some 100, none, .present, none⟩]) ∧
    handleCheckIn [⟨7, .evening, 0, some 100, some 150, .present, none⟩] 7
        .evening 0 ⟨19, 200⟩ =
      (.shiftAlreadyCompleted,
        [⟨7, .evening, 0, some 100, some 150, .present, none⟩]) ∧
    handleCheckIn [] 7 .night 0 ⟨12, 100⟩ = (.outsideShiftWindow, []) := by
  refine ⟨?_, ?_, ?_, ?_⟩
  · exact (handleCheckIn_spec [] 7 .evening 0 ⟨18, 100⟩).2.2.2 (by decide)
      (by decide) (by decide)
  · exact (handleCheckIn_spec [⟨7, .evening, 0, some 100, none, .present, none⟩]
      7 .evening 0 ⟨19, 200⟩).2.1 (by decide) (by decide)
  · exact (handleCheckIn_spec [⟨7, .evening, 0, some 100, some 150, .present, none⟩]
      7 .evening 0 ⟨19, 200⟩).2.2.1 (by decide) (by decide) (by decide)
  · exact (handleCheckIn_spec [] 7 .night 0 ⟨12, 100⟩).1 (by decide)

/-- The tables the admin cash-payment handler touches (notifications, admin
logs and payment history are elided: no claim concerns them). -/
structure PayState where
  payments : List CashPayment
  bookings : List SeatBooking
  admissions : List Admission
deriving DecidableEq, Repr

inductive PayAction
| approve
| reject
deriving DecidableEq, Repr

/-- The admission update of the reject branch of `handlePaymentAction`:
`UPDATE admissions SET payment_status = 'pending' WHERE id = aid`, applied to
one row — no other field appears in the update. -/
def rejectAdmissionUpdate (aid : Nat) (a : Admission) : Admission :=
  if a.id = aid then {a with payment_status := AdmPayStatus.pending} else a

/-- The first statement of `handlePaymentAction`: set the cash payment row's
status (approved/rejected). -/
def setCashStatus (pid : Nat) (st : CashStatus) (p : CashPayment) : CashPayment :=
  if p.id = pid then {p with status := st} else p

/-- Calendar month addition, abstracted to a tick offset: the claims only need
that start/end/payment dates are set or left unchanged, never their value. -/
def addMonths (t months : Nat) : Nat := t + months

/-- The admission part of the approve branch of `handlePaymentAction`: fetch
the admission's duration, then set payment_status = paid and the payment,
start and end dates. A missing admission row makes `.single()` throw, so the
step reports failure with the state unchanged. -/
def admissionApproveStep (st : PayState) (payment : CashPayment) (now : Nat) :
    PayState × Bool :=
  match payment.admission_id with
  | some aid =>
    match st.admissions.find? fun a => decide (a.id = aid) with
    | none => (st, false)
    | some adm =>
      ({st with admissions := st.admissions.map fun a =>
          if a.id = aid then
            {a with payment_status := AdmPayStatus.paid
                    payment_date := some now
                    start_date := some now
                    end_date := some (addMonths now adm.duration)}
          else a}, true)
  | none => (st, true)

/-- `handlePaymentAction` of the admin payments screen: first updates the
cash_payments row to approved/rejected; on approve it then sets the linked
booking to 'booked' (an update the storage layer may reject through the
partial unique index — the thrown error is caught and the payment update is
NOT reverted) and/or marks the linked admission paid; on reject it deletes the
linked booking and/or reverts the linked admission's payment_status to
pending, touching no other admission field. The Bool reports whether the
handler reached its success alert. -/
def handlePaymentAction (st : PayState) (payment : CashPayment)
    (action : PayAction) (now : Nat) : PayState × Bool :=
  let payments2 := st.payments.map
    (setCashStatus payment.id (if action = .approve then .approved else .rejected))
  let st1 : PayState := {st with payments := payments2}
  match action with
  | .approve =>
    match payment.booking_id with
    | some bid =>
      match updateBookingToBooked st1.bookings bid with
      | .ok bks => admissionApproveStep {st1 with bookings := bks} payment now
      | .uniqueViolation => (st1, false)
    | none => admissionApproveStep st1 payment now
  | .reject =>
    let st2 : PayState := match payment.booking_id with
      | some bid => {st1 with bookings := st1.bookings.filter (fun b => decide (¬b.id = bid))}
      | none => st1
    match payment.admission_id with
    | some aid =>
      ({st2 with admissions := st2.admissions.map (rejectAdmissionUpdate aid)}, true)
    | none => (st2, true)

/-- C9: rejecting a cash payment whose target is an admission maps
`rejectAdmissionUpdate` over the admissions table and touches nothing else:
the update keeps every field of every row — id, user_id, selected shifts,
duration, total amount, start_date, end_date, payment_date — and only sets the
target row's payment_status to pending; rows of other admissions are returned
unchanged, and the bookings table is untouched. -/
theorem reject_admission_payment_frame (st : PayState) (payment : CashPayment)
    (aid : Nat) (now : Nat)
    (hadm : payment.admission_id = some aid) (hbk : payment.booking_id = none) :
    (handlePaymentAction st payment .reject now).1.bookings = st.bookings ∧
    (handlePaymentAction st payment .reject now).1.admissions =
      st.admissions.map (rejectAdmissionUpdate aid) ∧
    ∀ a : Admission,
      (rejectAdmissionUpdate aid a).id = a.id ∧
      (rejectAdmissionUpdate aid a).user_id = a.user_id ∧
      (rejectAdmissionUpdate aid a).selected_shifts = a.selected_shifts ∧
      (rejectAdmissionUpdate aid a).duration = a.duration ∧
      (rejectAdmissionUpdate aid a).total_amount = a.total_amount ∧
      (rejectAdmissionUpdate aid a).start_date = a.start_date ∧
      (rejectAdmissionUpdate aid a).end_date = a.end_date ∧
      (rejectAdmissionUpdate aid a).payment_date = a.payment_date ∧
      (a.id = aid → (rejectAdmissionUpdate aid a).payment_status = .pending) ∧
      (¬a.id = aid → rejectAdmissionUpdate aid a = a) := by
  have hres : handlePaymentAction st payment .reject now =
      ({st with
        payments := st.payments.map (setCashStatus payment.id .rejected),
        admissions := st.admissions.map (rejectAdmissionUpdate aid)}, true) := by
    unfold handlePaymentAction
    rw [hadm, hbk]
    rfl
  refine ⟨by rw [hres], by rw [hres], ?_⟩
  intro a
  unfold rejectAdmissionUpdate
  by_cases hid : a.id = aid
  · rw [if_pos hid]
    exact ⟨rfl, rfl, rfl, rfl, rfl, rfl, rfl, rfl, fun _ => rfl,
      fun hc => absurd hid hc⟩
  · rw [if_neg hid]
    exact ⟨rfl, rfl, rfl, rfl, rfl, rfl, rfl, rfl, fun hc => absurd hc hid,
      fun _ => rfl⟩

/-- A frame-effect state for the C9 witness: two admissions, the target (id 5,
paid, with dates) and a bystander (id 6). -/
def c9St : PayState :=
  ⟨[⟨9, 7, none, some 5, 549, .pending⟩], [],
    [⟨5, 7, [.morning], 3, 549, .paid, some 40, some 40, some 43⟩,
      ⟨6, 8, [.noon], 1, 349, .paid, some 50, some 50, some 51⟩]⟩

/-- Witness for C9 at `c9St`: rejecting payment 9 (target admission 5) keeps
the bookings table and maps the one-field update over the admissions; at the
two concrete rows, admission 5 keeps its dates with payment_status set to
pending and admission 6 is returned unchanged. -/
theorem reject_admission_payment_frame_witness :
    (handlePaymentAction c9St ⟨9, 7, none, some 5, 549, .pending⟩ .reject
        60).1.bookings = c9St.bookings ∧
    (handlePaymentAction c9St ⟨9, 7, none, some 5, 549, .pending⟩ .reject
        60).1.admissions = c9St.admissions.map (rejectAdmissionUpdate 5) ∧
    (rejectAdmissionUpdate 5
        ⟨5, 7, [.morning], 3, 549, .paid, some 40, some 40, some 43⟩).start_date =
      some 40 ∧
    (rejectAdmissionUpdate 5
        ⟨5, 7, [.morning], 3, 549, .paid, some 40, some 40, some 43⟩).end_date =
      some 43 ∧
    (rejectAdmissionUpdate 5
        ⟨5, 7, [.morning], 3, 549, .paid, some 40, some 40, some 43⟩).payment_date =
      some 40 ∧
    (rejectAdmissionUpdate 5
        ⟨5, 7, [.morning], 3, 549, .paid, some 40, some 40, some 43⟩).payment_status =
      .pending ∧
    rejectAdmissionUpdate 5
        ⟨6, 8, [.noon], 1, 349, .paid, some 50, some 50, some 51⟩ =
      ⟨6, 8, [.noon], 1, 349, .paid, some 50, some 50, some 51⟩ := by
  have h := reject_admission_payment_frame c9St ⟨9, 7, none, some 5, 549, .pending⟩
    5 60 (by decide) (by decide)
  refine ⟨h.1, h.2.1, ?_, ?_, ?_, ?_, ?_⟩
  · exact (h.2.2 ⟨5, 7, [.morning], 3, 549, .paid, some 40, some 40, some 43⟩).2.2.2.2.2.1
  · exact (h.2.2 ⟨5, 7, [.morning], 3, 549, .paid, some 40, some 40, some 43⟩).2.2.2.2.2.2.1
  · exact (h.2.2 ⟨5, 7, [.morning], 3, 549, .paid, some 40, some 40, some 43⟩).2.2.2.2.2.2.2.1
  · exact (h.2.2 ⟨5, 7, [.morning], 3, 549, .paid, some 40, some 40, some 43⟩).2.2.2.2.2.2.2.2.1 rfl
  · exact (h.2.2 ⟨6, 8, [.noon], 1, 349, .paid, some 50, some 50, some 51⟩).2.2.2.2.2.2.2.2.2
      (by decide)

/-- C10: on approve, the cash payment row is set to approved BEFORE the
booking transition is attempted; when the storage layer rejects that
transition through the partial unique index, the handler reports failure but
keeps the approved payment status and leaves the bookings table with the
target booking still pending: an approved cash payment linked to a pending
booking. -/
theorem approve_payment_not_reverted (st : PayState) (payment : CashPayment)
    (bid : Nat) (now : Nat) (b c : SeatBooking)
    (hbk : payment.booking_id = some bid)
    (hb : b ∈ st.bookings) (hbid : b.id = bid)
    (_hbpend : b.booking_status = .pending)
    (hc : c ∈ st.bookings) (hcid : ¬c.id = bid)
    (hcbooked : c.booking_status = .booked) (hkey : bkey c = bkey b) :
    handlePaymentAction st payment .approve now =
      ({st with payments := st.payments.map (setCashStatus payment.id .approved)},
        false) ∧
    (handlePaymentAction st payment .approve now).1.bookings = st.bookings ∧
    b ∈ (handlePaymentAction st payment .approve now).1.bookings ∧
    (payment ∈ st.payments →
      {payment with status := CashStatus.approved} ∈
        (handlePaymentAction st payment .approve now).1.payments) := by
  have hviol : ¬BookedUnique (st.bookings.map (setBookedRow bid)) := by
    have hxmem : {b with booking_status := BookingStatus.booked} ∈
        st.bookings.map (setBookedRow bid) :=
      List.mem_map.mpr ⟨b, hb, setBookedRow_of_eq hbid⟩
    have hymem : c ∈ st.bookings.map (setBookedRow bid) :=
      List.mem_map.mpr ⟨c, hc, setBookedRow_of_ne hcid⟩
    have hne : ¬({b with booking_status := BookingStatus.booked} = c) := by
      intro h
      have : ({b with booking_status := BookingStatus.booked} : SeatBooking).id = c.id :=
        congrArg SeatBooking.id h
      exact hcid (this ▸ hbid)
    exact not_bookedUnique_of_two hxmem hymem rfl hcbooked hne hkey.symm
  have hupd : updateBookingToBooked st.bookings bid = .uniqueViolation := by
    unfold updateBookingToBooked
    rw [if_neg hviol]
  have hres : handlePaymentAction st payment .approve now =
      ({st with payments := st.payments.map (setCashStatus payment.id .approved)},
        false) := by
    unfold handlePaymentAction
    rw [hbk]
    simp only
    rw [hupd]
    rfl
  refine ⟨hres, by rw [hres], by rw [hres]; exact hb, ?_⟩
  intro hpm
  rw [hres]
  exact List.mem_map.mpr ⟨payment, hpm, by simp [setCashStatus]⟩

/-- The C10 witness state: payment 9 is pending for booking 2 (seat A12,
morning, date 0) while booking 1 already holds that seat as booked. -/
def c10St : PayState :=
  ⟨[⟨9, 11, some 2, none, 50, .pending⟩],
    [⟨1, 10, .morning, "A12", .booked, 0⟩, ⟨2, 11, .morning, "A12", .pending, 0⟩],
    []⟩

/-- Witness for C10 at `c10St`: approving payment 9 fails on the seat
uniqueness constraint, yet the payment row ends approved while booking 2
stays pending. -/
theorem approve_payment_not_reverted_witness :
    handlePaymentAction c10St ⟨9, 11, some 2, none, 50, .pending⟩ .approve 60 =
      ({c10St with payments := c10St.payments.map (setCashStatus 9 .approved)},
        false) ∧
    (handlePaymentAction c10St ⟨9, 11, some 2, none, 50, .pending⟩ .approve
        60).1.bookings = c10St.bookings ∧
    (⟨2, 11, .morning, "A12", .pending, 0⟩ : SeatBooking) ∈
      (handlePaymentAction c10St ⟨9, 11, some 2, none, 50, .pending⟩ .approve
        60).1.bookings ∧
    ((⟨9, 11, some 2, none, 50, .pending⟩ : CashPayment) ∈ c10St.payments →
      ({(⟨9, 11, some 2, none, 50, .pending⟩ : CashPayment) with
          status := CashStatus.approved}) ∈
        (handlePaymentAction c10St ⟨9, 11, some 2, none, 50, .pending⟩ .approve
          60).1.payments) :=
  approve_payment_not_reverted c10St ⟨9, 11, some 2, none, 50, .pending⟩ 2 60
    ⟨2, 11, .morning, "A12", .pending, 0⟩ ⟨1, 10, .morning, "A12", .booked, 0⟩
    (by decide) (by decide) (by decide) (by decide) (by decide) (by decide)
    (by decide) (by decide)

end LCL
